import Mathlib

/-
Verification of the ecpps single-header ECS (src/ecpps.h).

The embedding is a shallow model of the component store and lifecycle
machinery.  C++ containers are modelled as follows:

* std::map<ID, unsigned>  — an association list (List (ID × Nat)) whose
  operations mirror map::insert (keeps the old value on a hit), map::erase,
  map::at (throwing lookup, modelled as Option), and operator[]
  (default-inserting lookup).  Key order is irrelevant to every property
  proved here, so the list keeps insertion order.
* std::vector<T>          — List T; emplace_back is append, erase(begin()+k)
  is List.eraseIdx k, vector::at is the partial lookup l[k]?.
* std::set<ID>            — Finset ID.
* the per-type registry map<const char*, shared_ptr<IComponentVector>> —
  an association list keyed by an integer type token (TypeKey); typeid(T)
  .name() pointers are stable unique per-type keys, which an integer token
  models faithfully.  Mutation through the shared_ptr returned by
  getComponentVector is modelled by writing the updated vector back into
  the registry.

Exceptions (std::out_of_range from map::at / vector::at) are modelled by
Option: a none result means the C++ call throws.  The std::cout logging in
the source has no effect on the store and is not modelled.  The
is_base_of marker checks succeed for all component subtypes, which is the
case every claim below is about, so the successful branch is modelled.
-/

namespace Ecpps

/-- Entity identifier: typedef unsigned ID.  Modelled as Nat (the claims
never exercise wrap-around of the 32-bit counter). -/
abbrev ID := Nat

/-- Stable per-type token standing for the typeid(T).name() key of the
registry. -/
abbrev TypeKey := Nat

/-- Lookup in a std::map modelled as an association list: the mapped value
of the first entry with the given key. -/
def mapFind (m : List (ID × Nat)) (k : ID) : Option Nat :=
  match m with
  | [] => none
  | (k', v) :: rest => if k' = k then some v else mapFind rest k

/-- std::map::insert: inserts only when the key is absent; when the key is
already present the existing mapped value is kept. -/
def mapInsert (m : List (ID × Nat)) (k : ID) (v : Nat) : List (ID × Nat) :=
  match m with
  | [] => [(k, v)]
  | (k', v') :: rest => if k' = k then (k', v') :: rest else (k', v') :: mapInsert rest k v

/-- std::map::erase by key: removes the entry with the given key. -/
def mapErase (m : List (ID × Nat)) (k : ID) : List (ID × Nat) :=
  match m with
  | [] => []
  | (k', v') :: rest => if k' = k then rest else (k', v') :: mapErase rest k

/-- The per-type component store, class ComponentVector<T> of src/ecpps.h:
entity→slot index map, dense component vector, live set (entities) and
staged set (newEntities). -/
structure ComponentVector (α : Type) where
  indexes : List (ID × Nat)
  components : List α
  entities : Finset ID
  newEntities : Finset ID
deriving DecidableEq

/-- A default-constructed ComponentVector<T>: every member empty. -/
def ComponentVector.empty {α : Type} : ComponentVector α := ⟨[], [], ∅, ∅⟩

/-- ComponentVector<T>::addComponent (ecpps.h lines 212-240): compute the
slot (0 when the vector is empty, otherwise its size), map::insert the
slot for the entity, add the entity to the staged set, and append the
component. -/
def ComponentVector.addComponent {α : Type} (s : ComponentVector α) (entityID : ID)
    (component : α) : ComponentVector α :=
  let index := if s.components.isEmpty then 0 else s.components.length
  { s with
    indexes := mapInsert s.indexes entityID index
    newEntities := insert entityID s.newEntities
    components := s.components ++ [component] }

/-- ComponentVector<T>::removeEntity (ecpps.h lines 242-266): indexes.at
(throws — none — when the entity is absent), erase the entity from the
index map, erase its row from the component vector, then decrement every
remaining index value strictly greater than the erased slot.  The live and
staged sets are not touched. -/
def ComponentVector.removeEntity {α : Type} (s : ComponentVector α) (entityID : ID) :
    Option (ComponentVector α) :=
  match mapFind s.indexes entityID with
  | none => none
  | some index =>
    some { s with
      indexes := (mapErase s.indexes entityID).map
        (fun kv => (kv.1, if kv.2 > index then kv.2 - 1 else kv.2))
      components := s.components.eraseIdx index }

/-- ComponentVector<T>::getComponent (ecpps.h lines 268-274): indexes
[entityID] — operator[], which default-inserts slot 0 when the entity is
absent — followed by components.at(index), whose out-of-range throw is the
none result.  The possibly-enlarged index map is returned alongside. -/
def ComponentVector.getComponent {α : Type} (s : ComponentVector α) (entityID : ID) :
    Option α × ComponentVector α :=
  match mapFind s.indexes entityID with
  | some index => (s.components[index]?, s)
  | none => (s.components[0]?, { s with indexes := mapInsert s.indexes entityID 0 })

/-- ComponentVector<T>::getComponentEntities: the live set. -/
def ComponentVector.getComponentEntities {α : Type} (s : ComponentVector α) : Finset ID :=
  s.entities

/-- ComponentVector<T>::getNewComponentEntities: the staged set. -/
def ComponentVector.getNewComponentEntities {α : Type} (s : ComponentVector α) : Finset ID :=
  s.newEntities

/-- ComponentVector<T>::groupEntities (ecpps.h lines 286-292): insert the
staged set into the live set, then clear the staged set. -/
def ComponentVector.groupEntities {α : Type} (s : ComponentVector α) : ComponentVector α :=
  { s with entities := s.entities ∪ s.newEntities, newEntities := ∅ }

/-- Lookup in the per-type registry (map<const char*, shared_ptr<...>>). -/
def regFind {α : Type} (m : List (TypeKey × ComponentVector α)) (t : TypeKey) :
    Option (ComponentVector α) :=
  match m with
  | [] => none
  | (t', v) :: rest => if t' = t then some v else regFind rest t

/-- Write-back of a mutation performed through the shared_ptr returned by
getComponentVector: the registry entry for the token is replaced by the
updated vector (entries for other tokens are untouched). -/
def regSet {α : Type} (m : List (TypeKey × ComponentVector α)) (t : TypeKey)
    (v : ComponentVector α) : List (TypeKey × ComponentVector α) :=
  match m with
  | [] => []
  | (t', v') :: rest => (if t' = t then (t, v) else (t', v')) :: regSet rest t v

/-- The type-erased registry, class ComponentManager of src/ecpps.h.  The
payload type is fixed to α: each C++ template instantiation T corresponds
to one TypeKey token. -/
structure ComponentManager (α : Type) where
  componentVectors : List (TypeKey × ComponentVector α)
deriving DecidableEq

/-- ComponentManager::getComponentVector (ecpps.h lines 294-307): look up
the token; on a miss construct a fresh empty typed vector and register it;
return the (possibly extended) registry together with the vector the
returned shared_ptr points at. -/
def ComponentManager.getComponentVector {α : Type} (m : ComponentManager α) (t : TypeKey) :
    ComponentManager α × ComponentVector α :=
  match regFind m.componentVectors t with
  | some v => (m, v)
  | none => (⟨m.componentVectors ++ [(t, ComponentVector.empty)]⟩, ComponentVector.empty)

/-- ComponentManager::addComponent (ecpps.h lines 309-314): resolve the
typed vector for the token and add to it. -/
def ComponentManager.addComponent {α : Type} (m : ComponentManager α) (t : TypeKey)
    (entityID : ID) (component : α) : ComponentManager α :=
  let p := m.getComponentVector t
  ⟨regSet p.1.componentVectors t (p.2.addComponent entityID component)⟩

/-- ComponentManager::getComponent (ecpps.h lines 316-319): resolve the
typed vector and read from it; the vector's getComponent may also mutate
its index map, which the write-back records. -/
def ComponentManager.getComponent {α : Type} (m : ComponentManager α) (t : TypeKey)
    (entityID : ID) : Option α × ComponentManager α :=
  let p := m.getComponentVector t
  let q := p.2.getComponent entityID
  (q.1, ⟨regSet p.1.componentVectors t q.2⟩)

/-- ComponentManager::getComponentEntities (ecpps.h lines 321-324):
resolve (lazily creating) the typed vector and return its live set. -/
def ComponentManager.getComponentEntities {α : Type} (m : ComponentManager α) (t : TypeKey) :
    Finset ID × ComponentManager α :=
  let p := m.getComponentVector t
  (p.2.getComponentEntities, p.1)

/-- ComponentManager::getNewComponentEntities (ecpps.h lines 326-329):
resolve (lazily creating) the typed vector and return its staged set. -/
def ComponentManager.getNewComponentEntities {α : Type} (m : ComponentManager α) (t : TypeKey) :
    Finset ID × ComponentManager α :=
  let p := m.getComponentVector t
  (p.2.getNewComponentEntities, p.1)

/-- ComponentManager::groupEntities (ecpps.h lines 331-334). -/
def ComponentManager.groupEntities {α : Type} (m : ComponentManager α) (t : TypeKey) :
    ComponentManager α :=
  let p := m.getComponentVector t
  ⟨regSet p.1.componentVectors t p.2.groupEntities⟩

/-- Fan-out helper: call removeEntity on every registered vector, in
registry order; a throw (none) from any vector propagates and aborts the
iteration, as the C++ exception does. -/
def removeAll {α : Type} (m : List (TypeKey × ComponentVector α)) (entityID : ID) :
    Option (List (TypeKey × ComponentVector α)) :=
  match m with
  | [] => some []
  | (t, v) :: rest =>
    match v.removeEntity entityID with
    | none => none
    | some v' => (removeAll rest entityID).map (fun r => (t, v') :: r)

/-- ComponentManager::removeEntity (ecpps.h lines 336-342): the
registry-wide fan-out over all registered typed vectors. -/
def ComponentManager.removeEntity {α : Type} (m : ComponentManager α) (entityID : ID) :
    Option (ComponentManager α) :=
  (removeAll m.componentVectors entityID).map (fun r => ⟨r⟩)

/-- The world, class ECSManager of src/ecpps.h.  The facade table
map<ID, Entity> is modelled by its key set: an Entity facade holds exactly
its own id plus a back-reference to the manager, so the keys carry all of
its state.  Systems, render systems and the named-entity table play no
part in the claims and are omitted. -/
structure ECSManager (α : Type) where
  managerID : ID
  components : ComponentManager α
  entities : Finset ID
  nextID : ID
  reusableIDs : List ID
deriving DecidableEq

/-- ECSManager::generateEntityID (ecpps.h lines 478-496): when the
reusable pool is non-empty, pop and return its back element; otherwise
return nextID and increment it. -/
def ECSManager.generateEntityID {α : Type} (s : ECSManager α) : ID × ECSManager α :=
  match s.reusableIDs.getLast? with
  | some toReturn => (toReturn, { s with reusableIDs := s.reusableIDs.dropLast })
  | none => (s.nextID, { s with nextID := s.nextID + 1 })

/-- ECSManager::createEntity (ecpps.h lines 353-375): generate a fresh id,
construct the facade, insert it into the facade table, and hand it back
(modelled by the id). -/
def ECSManager.createEntity {α : Type} (s : ECSManager α) : ID × ECSManager α :=
  let p := s.generateEntityID
  (p.1, { p.2 with entities := insert p.1 p.2.entities })

/-- The ECSManager constructor (ecpps.h lines 346-351): starting from
default-initialized members, create the self entity and record its id as
managerID. -/
def ECSManager.new (α : Type) : ECSManager α :=
  let s0 : ECSManager α :=
    { managerID := 0, components := ⟨[]⟩, entities := ∅, nextID := 0, reusableIDs := [] }
  let p := s0.createEntity
  { p.2 with managerID := p.1 }

/-- ECSManager::destroyEntity (ecpps.h lines 378-390): entities.at throws
(none) for an unknown id; otherwise fan the removal out over the
component registry (an exception there propagates), erase the facade, and
push the id onto the reusable pool. -/
def ECSManager.destroyEntity {α : Type} (s : ECSManager α) (entityID : ID) :
    Option (ECSManager α) :=
  if entityID ∈ s.entities then
    (s.components.removeEntity entityID).map (fun cm =>
      { s with
        components := cm
        entities := s.entities.erase entityID
        reusableIDs := s.reusableIDs ++ [entityID] })
  else none

/-- ECSManager::addComponent(ID, T) (ecpps.h lines 412-419), on the branch
where T is a component subtype (the is_base_of check passes). -/
def ECSManager.addComponent {α : Type} (s : ECSManager α) (t : TypeKey) (entityID : ID)
    (component : α) : ECSManager α :=
  { s with components := s.components.addComponent t entityID component }

/-- ECSManager::addComponent(T) (ecpps.h lines 421-424): the one-argument
overload, routing to the world's self id. -/
def ECSManager.addComponentSelf {α : Type} (s : ECSManager α) (t : TypeKey) (component : α) :
    ECSManager α :=
  s.addComponent t s.managerID component

/-- ECSManager::getComponent(ID) (ecpps.h lines 445-448). -/
def ECSManager.getComponent {α : Type} (s : ECSManager α) (t : TypeKey) (entityID : ID) :
    Option α × ECSManager α :=
  let p := s.components.getComponent t entityID
  (p.1, { s with components := p.2 })

/-- ECSManager::getComponent() (ecpps.h lines 450-453): the zero-argument
overload, routing to the world's self id. -/
def ECSManager.getComponentSelf {α : Type} (s : ECSManager α) (t : TypeKey) :
    Option α × ECSManager α :=
  s.getComponent t s.managerID

/-- ECSManager::getComponentEntities (ecpps.h lines 426-433), on the
branch where T is a component subtype. -/
def ECSManager.getComponentEntities {α : Type} (s : ECSManager α) (t : TypeKey) :
    Finset ID × ECSManager α :=
  let p := s.components.getComponentEntities t
  (p.1, { s with components := p.2 })

/-- ECSManager::getNewComponentEntities (ecpps.h lines 435-438). -/
def ECSManager.getNewComponentEntities {α : Type} (s : ECSManager α) (t : TypeKey) :
    Finset ID × ECSManager α :=
  let p := s.components.getNewComponentEntities t
  (p.1, { s with components := p.2 })

/-! Concrete scenario states used below. -/

/-- A typed array holding a single component 10 for entity 0. -/
def exVecDup : ComponentVector Nat := ComponentVector.empty.addComponent 0 10

/-- The scenario of spec §8.A: components with payloads 0, 1, 2 added for
entities 0, 1, 2 in order. -/
def exVec3 : ComponentVector Nat :=
  ((ComponentVector.empty.addComponent 0 0).addComponent 1 1).addComponent 2 2

/-- A fresh world (spec §8.B).  Its constructor allocates the first id for
the self entity. -/
def c6w0 : ECSManager Nat := ECSManager.new Nat

/-- Creation of the five entities e0..e4 of spec §8.B, in order. -/
def c6p1 : ID × ECSManager Nat := c6w0.createEntity

def c6p2 : ID × ECSManager Nat := c6p1.2.createEntity

def c6p3 : ID × ECSManager Nat := c6p2.2.createEntity

def c6p4 : ID × ECSManager Nat := c6p3.2.createEntity

def c6p5 : ID × ECSManager Nat := c6p4.2.createEntity

/-- Destroying e2 and then e4 (the third and fifth created entities). -/
def c6afterDestroy : Option (ECSManager Nat) :=
  (c6p5.2.destroyEntity c6p3.1).bind (fun w => w.destroyEntity c6p5.1)

/-- The ids returned by the next three createEntity calls after the two
destructions. -/
def c6ids : Option (ID × ID × ID) :=
  c6afterDestroy.map (fun w =>
    let p6 := w.createEntity
    let p7 := p6.2.createEntity
    let p8 := p7.2.createEntity
    (p6.1, p7.1, p8.1))

/-! Association-list lemmas for the std::map model. -/

theorem mapFind_mapInsert_self (m : List (ID × Nat)) (k : ID) (v : Nat)
    (h : mapFind m k = none) : mapFind (mapInsert m k v) k = some v := by
  induction m with
  | nil => simp [mapFind, mapInsert]
  | cons p rest ih =>
    obtain ⟨k', v'⟩ := p
    by_cases hk : k' = k
    · simp [mapFind, hk] at h
    · simp only [mapFind, mapInsert, hk, if_false] at h ⊢
      exact ih h

theorem mapInsert_of_find_some (m : List (ID × Nat)) (k : ID) (v w : Nat)
    (h : mapFind m k = some w) : mapInsert m k v = m := by
  induction m with
  | nil => simp [mapFind] at h
  | cons p rest ih =>
    obtain ⟨k', v'⟩ := p
    by_cases hk : k' = k
    · simp [mapInsert, hk]
    · simp only [mapFind, hk, if_false] at h
      simp only [mapInsert, hk, if_false]
      rw [ih h]

theorem mapFind_eq_none_of_not_mem (m : List (ID × Nat)) (k : ID)
    (h : k ∉ m.map Prod.fst) : mapFind m k = none := by
  induction m with
  | nil => rfl
  | cons p rest ih =>
    obtain ⟨k', v'⟩ := p
    simp only [List.map_cons, List.mem_cons, not_or] at h
    simp only [mapFind, Ne.symm h.1, if_false]
    exact ih h.2

theorem mapFind_mapErase_self (m : List (ID × Nat)) (k : ID)
    (hnd : (m.map Prod.fst).Nodup) : mapFind (mapErase m k) k = none := by
  induction m with
  | nil => rfl
  | cons p rest ih =>
    obtain ⟨k', v'⟩ := p
    simp only [List.map_cons, List.nodup_cons] at hnd
    by_cases hk : k' = k
    · simp only [mapErase, hk, if_true]
      exact mapFind_eq_none_of_not_mem rest k (hk ▸ hnd.1)
    · simp only [mapErase, hk, if_false, mapFind]
      exact ih hnd.2

theorem mapFind_mapErase_ne (m : List (ID × Nat)) (k k' : ID) (h : k' ≠ k) :
    mapFind (mapErase m k) k' = mapFind m k' := by
  induction m with
  | nil => rfl
  | cons p rest ih =>
    obtain ⟨k₀, v₀⟩ := p
    by_cases h0 : k₀ = k
    · subst h0
      simp only [mapErase, if_true, mapFind, Ne.symm h, if_false]
    · simp only [mapErase, h0, if_false, mapFind]
      by_cases h1 : k₀ = k'
      · simp [h1]
      · simp only [h1, if_false]
        exact ih

theorem mapFind_mapDecrement (m : List (ID × Nat)) (k : ID) (idx : Nat) :
    mapFind (m.map (fun kv => (kv.1, if kv.2 > idx then kv.2 - 1 else kv.2))) k
      = (mapFind m k).map (fun v => if v > idx then v - 1 else v) := by
  induction m with
  | nil => rfl
  | cons p rest ih =>
    obtain ⟨k', v'⟩ := p
    by_cases hk : k' = k
    · simp [mapFind, hk]
    · simp only [List.map_cons, mapFind, hk, if_false]
      exact ih

/-! Registry lemmas. -/

theorem regFind_regSet_self {α : Type} (m : List (TypeKey × ComponentVector α))
    (t : TypeKey) (v w : ComponentVector α) (h : regFind m t = some w) :
    regFind (regSet m t v) t = some v := by
  induction m with
  | nil => simp [regFind] at h
  | cons p rest ih =>
    obtain ⟨t₀, v₀⟩ := p
    by_cases h0 : t₀ = t
    · subst h0
      simp only [regSet, if_pos rfl]
      simp [regFind]
    · simp only [regFind, h0, if_false] at h
      simp only [regSet, if_neg h0]
      simpa [regFind, h0] using ih h

theorem regFind_append_right_of_none {α : Type} (m l : List (TypeKey × ComponentVector α))
    (t : TypeKey) (h : regFind m t = none) : regFind (m ++ l) t = regFind l t := by
  induction m with
  | nil => rfl
  | cons p rest ih =>
    obtain ⟨t₀, v₀⟩ := p
    by_cases h0 : t₀ = t
    · simp [regFind, h0] at h
    · simp only [regFind, h0, if_false] at h
      simp only [List.cons_append, regFind, h0, if_false]
      exact ih h

theorem getComponentVector_regFind {α : Type} (m : ComponentManager α) (t : TypeKey) :
    regFind (m.getComponentVector t).1.componentVectors t = some (m.getComponentVector t).2 := by
  unfold ComponentManager.getComponentVector
  cases h : regFind m.componentVectors t with
  | some v => simp [h]
  | none =>
    simp only [h]
    rw [regFind_append_right_of_none _ _ _ h]
    simp [regFind]

/-! ## Claims -/

/-- C1: the spec requires removeEntity on an id absent from the index map
to be a silent no-op, but ComponentVector::removeEntity begins with
indexes.at(entityID), which throws std::out_of_range for an absent id
(the none result), and the exception propagates through the registry-wide
fan-out ComponentManager::removeEntity. -/
theorem removeEntity_absent_id_throws :
    ComponentVector.removeEntity (ComponentVector.empty (α := Nat)) 0 = none ∧
    ComponentManager.removeEntity
      (⟨[(0, ComponentVector.empty.addComponent 1 42)]⟩ : ComponentManager Nat) 2 = none := by
  constructor <;> rfl

/-- C2: the dense-array invariant fails because
ComponentVector::removeEntity never erases the id from the live or staged
set: after adding a component for entity 0 and then removing entity 0, the
data vector and index map are empty but the staged set still holds 0, so
the length of data (0) differs from the size of the union of the live and
staged sets (1). -/
theorem removeEntity_leaves_live_staged :
    ((ComponentVector.empty (α := Nat)).addComponent 0 99).removeEntity 0 =
      some ⟨[], [], ∅, {0}⟩ ∧
    (((ComponentVector.empty (α := Nat)).addComponent 0 99).removeEntity 0).map
      (fun s => (s.components.length, (s.entities ∪ s.newEntities).card)) = some (0, 1) := by
  constructor <;> decide

/-- C3: the spec requires get on an absent id to fail fast with a bounds
failure, but ComponentVector::getComponent reads indexes[entityID] with
operator[], which silently default-inserts slot 0: with entity 0's
component 99 stored and entity 1 absent, getComponent(1) returns entity
0's component 99 and leaves a new index entry mapping 1 to slot 0. -/
theorem getComponent_absent_id_silently_creates :
    (((ComponentVector.empty (α := Nat)).addComponent 0 99).getComponent 1).1 = some 99 ∧
    mapFind ((((ComponentVector.empty (α := Nat)).addComponent 0 99).getComponent 1).2).indexes
      1 = some 0 := by
  constructor <;> decide

/-- C4: groupEntities empties the staged set, makes the live set the union
of the previous live and staged sets, never consults or changes the data
vector and the index map, and an immediately repeated promotion changes
nothing. -/
theorem groupEntities_promotion (α : Type) (s : ComponentVector α) :
    s.groupEntities.newEntities = ∅ ∧
    s.groupEntities.entities = s.entities ∪ s.newEntities ∧
    s.groupEntities.indexes = s.indexes ∧
    s.groupEntities.components = s.components ∧
    s.groupEntities.groupEntities = s.groupEntities := by
  refine ⟨rfl, rfl, rfl, rfl, ?_⟩
  simp [ComponentVector.groupEntities]

/-- C5: generateEntityID pops and returns the back of the reusable pool
when it is non-empty (so the most recently released id is handed out
first), and otherwise returns nextID and increments it; destroyEntity,
when it succeeds, pushes the destroyed id onto the back of the pool. -/
theorem generateEntityID_lifo (α : Type) (s : ECSManager α) :
    (s.reusableIDs = [] →
      s.generateEntityID = (s.nextID, { s with nextID := s.nextID + 1 })) ∧
    (∀ l i, s.reusableIDs = l ++ [i] →
      s.generateEntityID = (i, { s with reusableIDs := l })) ∧
    (∀ entityID s', s.destroyEntity entityID = some s' →
      s'.reusableIDs = s.reusableIDs ++ [entityID]) := by
  refine ⟨?_, ?_, ?_⟩
  · intro h
    simp [ECSManager.generateEntityID, h]
  · intro l i h
    simp [ECSManager.generateEntityID, h]
  · intro entityID s' h
    simp only [ECSManager.destroyEntity] at h
    split at h
    · rw [Option.map_eq_some'] at h
      obtain ⟨cm, _, rfl⟩ := h
      rfl
    · exact absurd h (by simp)

/-- Witness for C5 at concrete states: a fresh world has an empty pool and
hands out nextID = 1; with pool [2, 3] the back element 3 is returned and
[2] remains; destroying the self entity of a fresh world puts 0 on the
pool. -/
theorem generateEntityID_lifo_witness :
    (ECSManager.new Nat).generateEntityID.1 = 1 ∧
    ({ ECSManager.new Nat with reusableIDs := [2, 3] } : ECSManager Nat).generateEntityID
      = (3, { ECSManager.new Nat with reusableIDs := [2] }) ∧
    ((ECSManager.new Nat).destroyEntity 0).map ECSManager.reusableIDs = some [0] := by
  refine ⟨?_, ?_, ?_⟩
  · rw [(generateEntityID_lifo Nat (ECSManager.new Nat)).1 rfl]
    decide
  · exact (generateEntityID_lifo Nat _).2.1 [2] 3 rfl
  · cases hd : (ECSManager.new Nat).destroyEntity 0 with
    | none => exact absurd hd (by decide)
    | some s' =>
      have hr := (generateEntityID_lifo Nat (ECSManager.new Nat)).2.2 0 s' hd
      simp only [Option.map_some']
      rw [hr]
      decide

/-- C6 counterexample: on a fresh world the claimed id sequence 4, 2, 5
for the three creations following the two destructions is wrong. -/
theorem reuse_scenario_counterexample : c6ids ≠ some (4, 2, 5) := by decide

/-- C6 amended: the world constructor allocates id 0 for its self entity,
so the five created entities e0..e4 receive ids 1..5; destroying e2
(id 3) and then e4 (id 5) makes the next two createEntity calls return 5
then 3 (LIFO), and a subsequent createEntity returns 6. -/
theorem reuse_scenario_amended :
    c6w0.managerID = 0 ∧
    (c6p1.1, c6p2.1, c6p3.1, c6p4.1, c6p5.1) = (1, 2, 3, 4, 5) ∧
    c6ids = some (5, 3, 6) := by
  exact ⟨by decide, by decide, by decide⟩

/-- Adding a component for an id absent from the index map and reading it
back through the same array returns exactly that component. -/
theorem getComponent_addComponent_self (α : Type) (vec : ComponentVector α) (id : ID) (v : α)
    (h : mapFind vec.indexes id = none) :
    ((vec.addComponent id v).getComponent id).1 = some v := by
  unfold ComponentVector.addComponent ComponentVector.getComponent
  dsimp only
  rw [mapFind_mapInsert_self _ _ _ h]
  dsimp only
  cases hc : vec.components with
  | nil => simp [hc]
  | cons a l => simp [hc, List.getElem?_concat_length]

/-- Reading through ComponentManager::getComponent when the registry
already holds a typed array for the token delegates to that array and
writes its (possibly mutated) state back. -/
theorem cm_getComponent_of_find (α : Type) (mm : ComponentManager α) (t : TypeKey) (id : ID)
    (w : ComponentVector α) (h : regFind mm.componentVectors t = some w) :
    mm.getComponent t id
      = ((w.getComponent id).1, ⟨regSet mm.componentVectors t (w.getComponent id).2⟩) := by
  unfold ComponentManager.getComponent ComponentManager.getComponentVector
  rw [h]

/-- Registry-level version: addComponent for the token followed by
getComponent for the same token and id returns the added component,
provided the id was not yet keyed in the token's typed array. -/
theorem cm_getComponent_addComponent_self (α : Type) (m : ComponentManager α) (t : TypeKey)
    (id : ID) (v : α)
    (h : mapFind ((m.getComponentVector t).2).indexes id = none) :
    ((m.addComponent t id v).getComponent t id).1 = some v := by
  have hfind := getComponentVector_regFind m t
  have h2 : regFind (m.addComponent t id v).componentVectors t
      = some ((m.getComponentVector t).2.addComponent id v) :=
    regFind_regSet_self _ _ _ _ hfind
  rw [cm_getComponent_of_find α (m.addComponent t id v) t id
    ((m.getComponentVector t).2.addComponent id v) h2]
  exact getComponent_addComponent_self α _ id v h

/-- C7: the one-argument addComponent routes to the world's self id, and
the zero-argument getComponent reads it back: for any world state in
which the self id is not yet keyed in the token's typed array, adding a
component value through the self-id shorthand and then reading through
the zero-argument getter yields that value. -/
theorem selfComponent_roundtrip (α : Type) (s : ECSManager α) (t : TypeKey) (v : α)
    (h : mapFind ((s.components.getComponentVector t).2).indexes s.managerID = none) :
    ((s.addComponentSelf t v).getComponentSelf t).1 = some v := by
  have hcm := cm_getComponent_addComponent_self α s.components t s.managerID v h
  simpa [ECSManager.addComponentSelf, ECSManager.addComponent, ECSManager.getComponentSelf,
    ECSManager.getComponent] using hcm

/-- Witness for C7: on a fresh world (self id 0, no typed array for token
3 yet), stashing the singleton component 42 and reading it back through
the zero-argument getter yields 42. -/
theorem selfComponent_roundtrip_witness :
    mapFind (((ECSManager.new Nat).components.getComponentVector 3).2).indexes
      (ECSManager.new Nat).managerID = none ∧
    (((ECSManager.new Nat).addComponentSelf 3 42).getComponentSelf 3).1 = some 42 :=
  ⟨by decide, selfComponent_roundtrip Nat (ECSManager.new Nat) 3 42 (by decide)⟩

/-- C8: removing an id stored at slot k erases row k from the data vector
(rows below k keep their position, rows above shift down by one), erases
the id from the index map, decrements every remaining index value
strictly greater than k, and leaves index values at most k unchanged. -/
theorem removeEntity_present_spec (α : Type) (s : ComponentVector α) (id : ID) (k : Nat)
    (hnd : (s.indexes.map Prod.fst).Nodup)
    (hfind : mapFind s.indexes id = some k) :
    ∃ s', s.removeEntity id = some s' ∧
      s'.components = s.components.eraseIdx k ∧
      (∀ j, j < k → s'.components[j]? = s.components[j]?) ∧
      (∀ j, k ≤ j → s'.components[j]? = s.components[j + 1]?) ∧
      mapFind s'.indexes id = none ∧
      (∀ id' w, id' ≠ id → mapFind s.indexes id' = some w →
        mapFind s'.indexes id' = some (if k < w then w - 1 else w)) := by
  refine ⟨{ s with
      indexes := (mapErase s.indexes id).map
        (fun kv => (kv.1, if kv.2 > k then kv.2 - 1 else kv.2))
      components := s.components.eraseIdx k }, ?_, rfl, ?_, ?_, ?_, ?_⟩
  · unfold ComponentVector.removeEntity
    rw [hfind]
  · intro j hj
    exact List.getElem?_eraseIdx_of_lt _ _ _ hj
  · intro j hj
    exact List.getElem?_eraseIdx_of_ge _ _ _ hj
  · show mapFind ((mapErase s.indexes id).map
        (fun kv => (kv.1, if kv.2 > k then kv.2 - 1 else kv.2))) id = none
    rw [mapFind_mapDecrement, mapFind_mapErase_self _ _ hnd]
    rfl
  · intro id' w hne hw
    show mapFind ((mapErase s.indexes id).map
        (fun kv => (kv.1, if kv.2 > k then kv.2 - 1 else kv.2))) id'
      = some (if k < w then w - 1 else w)
    rw [mapFind_mapDecrement, mapFind_mapErase_ne _ _ _ hne, hw]
    rfl

/-- Witness for C8 at the scenario of spec §8.A: after payloads 0, 1, 2
for entities 0, 1, 2 and removal of entity 1 (slot 1), the data vector is
[0, 2], entity 0 still maps to slot 0, entity 2 now maps to slot 1, the
removed entity is gone from the index map, and getComponent for entity 2
returns payload 2. -/
theorem removeEntity_present_witness :
    (exVec3.removeEntity 1).map
      (fun s => (s.components, mapFind s.indexes 0, mapFind s.indexes 2,
        (s.getComponent 2).1)) = some ([0, 2], some 0, some 1, some 2) ∧
    (∃ s', exVec3.removeEntity 1 = some s' ∧ mapFind s'.indexes 1 = none) := by
  constructor
  · decide
  · obtain ⟨s', h1, -, -, -, h5, -⟩ :=
      removeEntity_present_spec Nat exVec3 1 1 (by decide) (by decide)
    exact ⟨s', h1, h5⟩

/-- C9: a second addComponent for an id already keyed in the index map
leaves the index map unchanged (map::insert keeps the old value), appends
the new component as a row no index entry reaches, and getComponent for
that id still returns what it returned before the duplicate add. -/
theorem addComponent_duplicate_keeps_first (α : Type) (s : ComponentVector α) (id : ID)
    (k : Nat) (v : α)
    (hfind : mapFind s.indexes id = some k)
    (hbound : ∀ id' w, mapFind s.indexes id' = some w → w < s.components.length) :
    (s.addComponent id v).indexes = s.indexes ∧
    (s.addComponent id v).components = s.components ++ [v] ∧
    ((s.addComponent id v).getComponent id).1 = (s.getComponent id).1 ∧
    (∀ id', mapFind (s.addComponent id v).indexes id' ≠ some s.components.length) := by
  have hidx : (s.addComponent id v).indexes = s.indexes := by
    unfold ComponentVector.addComponent
    exact mapInsert_of_find_some _ _ _ _ hfind
  refine ⟨hidx, rfl, ?_, ?_⟩
  · unfold ComponentVector.getComponent
    rw [hidx, hfind]
    dsimp only
    have hk := hbound id k hfind
    show (s.components ++ [v])[k]? = s.components[k]?
    exact List.getElem?_append_left hk
  · intro id' hcontra
    rw [hidx] at hcontra
    exact absurd (hbound id' _ hcontra) (lt_irrefl _)

/-- Witness for C9: with component 10 stored for entity 0, a duplicate
add of 20 for entity 0 keeps the index map, grows the data vector to
[10, 20], still reads back 10, and no index entry reaches the new row. -/
theorem addComponent_duplicate_witness :
    (exVecDup.addComponent 0 20).indexes = exVecDup.indexes ∧
    (exVecDup.addComponent 0 20).components = [10, 20] ∧
    ((exVecDup.addComponent 0 20).getComponent 0).1 = some 10 ∧
    (∀ id', mapFind (exVecDup.addComponent 0 20).indexes id' ≠ some 1) := by
  have hb : ∀ id' w, mapFind exVecDup.indexes id' = some w → w < exVecDup.components.length := by
    intro id' w hw
    have hx : exVecDup.indexes = [(0, 0)] := by decide
    rw [hx] at hw
    simp only [mapFind] at hw
    split at hw
    · cases hw
      decide
    · cases hw
  have h := addComponent_duplicate_keeps_first Nat exVecDup 0 0 20 (by decide) hb
  refine ⟨h.1, ?_, ?_, h.2.2.2⟩
  · rw [h.2.1]
    decide
  · rw [h.2.2.1]
    decide

/-- C10: querying the live or staged entity set for a token never used
before does not fail: the typed array is lazily constructed empty,
registered under the token, and the returned sets are empty. -/
theorem lazy_query_empty (α : Type) (s : ECSManager α) (t : TypeKey)
    (h : regFind s.components.componentVectors t = none) :
    (s.getComponentEntities t).1 = ∅ ∧
    (s.getNewComponentEntities t).1 = ∅ ∧
    regFind ((s.getComponentEntities t).2).components.componentVectors t
      = some ComponentVector.empty := by
  unfold ECSManager.getComponentEntities ECSManager.getNewComponentEntities
    ComponentManager.getComponentEntities ComponentManager.getNewComponentEntities
    ComponentManager.getComponentVector
  rw [h]
  dsimp only
  refine ⟨rfl, rfl, ?_⟩
  rw [regFind_append_right_of_none _ _ _ h]
  simp [regFind]

/-- Witness for C10: a fresh world has no typed array for token 5; both
queries return the empty set and afterwards an empty array is registered
for the token. -/
theorem lazy_query_empty_witness :
    regFind (ECSManager.new Nat).components.componentVectors 5 = none ∧
    ((ECSManager.new Nat).getComponentEntities 5).1 = ∅ ∧
    ((ECSManager.new Nat).getNewComponentEntities 5).1 = ∅ ∧
    regFind (((ECSManager.new Nat).getComponentEntities 5).2).components.componentVectors 5
      = some ComponentVector.empty := by
  have h := lazy_query_empty Nat (ECSManager.new Nat) 5 (by decide)
  exact ⟨by decide, h.1, h.2.1, h.2.2⟩

end Ecpps
